import Mathlib

/-!
Verification of the dispute-game core and RPC metrics recorder of the
NanonNetwork/optimism repository.

The chain-metrics recorder is embedded from
`op-service/metrics/rpc_metrics.go`; the `Status` enumeration and the
alphabet-game setup are embedded from
`op-e2e/e2eutils/disputegame/helper.go`.  The dispute-game core itself
(claim tree, clock policy, game façade) is not among the provided source
files — only its tests and callers are — so those components are modelled
from the specification, as marked on each definition.
-/

namespace Fault

/-- Modelled from the spec: a generalized binary-tree coordinate
`(depth, indexAtDepth)`; the ClaimTree source is missing from the provided
files. -/
structure Position where
  depth : Nat
  indexAtDepth : Nat
  deriving DecidableEq, Repr

/-- Modelled from the spec: `attack(p)` yields the left child. -/
def Position.attack (p : Position) : Position :=
  { depth := p.depth + 1, indexAtDepth := 2 * p.indexAtDepth }

/-- Modelled from the spec: `defend(p)` yields the right child. -/
def Position.defend (p : Position) : Position :=
  { depth := p.depth + 1, indexAtDepth := 2 * p.indexAtDepth + 1 }

/-- Modelled from the spec: the deterministic projection of a position to a
trace index — the right-most leaf under the position. -/
def Position.traceIndex (maxDepth : Nat) (p : Position) : Nat :=
  (p.indexAtDepth + 1) * 2 ^ (maxDepth - p.depth) - 1

/-- Modelled from the spec: a claim of the dispute game; values and claimant
identities are abstracted as naturals, durations and timestamps as naturals.
`createdAt` records the chain timestamp at which the claim was posted, used
by the clock policy to measure elapsed time. -/
structure Claim where
  position : Position
  value : Nat
  parentIndex : Option Nat
  claimant : Nat
  clockCheckpoint : Nat
  createdAt : Nat
  deriving DecidableEq, Repr

/-- Status of a dispute game, from `op-e2e/e2eutils/disputegame/helper.go`:
`StatusInProgress`, `StatusChallengerWins`, `StatusDefenderWins` as a
`uint8` iota. -/
inductive Status where
  | InProgress
  | ChallengerWins
  | DefenderWins
  deriving DecidableEq, Repr

/-- Numeric encoding of `Status`, matching the Go `iota` order. -/
def Status.toNat : Status → Nat
  | .InProgress => 0
  | .ChallengerWins => 1
  | .DefenderWins => 2

/-- Modelled from the spec: the claims occupying the attack/defend child
positions of `p` in the tree (children are computed functionally from a
position, never stored). -/
def childrenAt (t : List Claim) (p : Position) : List Claim :=
  t.filter fun c => c.position == p.attack || c.position == p.defend

/-- Modelled from the spec: a claim is countered iff it has at least one
child claim. -/
def countered (t : List Claim) (c : Claim) : Bool :=
  ! (childrenAt t c.position).isEmpty

/-- Modelled from the spec: the bottom-up "survives" computation of
`ClaimTree.resolve`, with an explicit recursion budget on depth.  A claim
with no children survives; a claim with children survives iff all of its
children do not survive. -/
def survivesFrom (t : List Claim) : Nat → Position → Bool
  | 0, _ => true
  | b + 1, p => (childrenAt t p).all fun c => ! survivesFrom t b c.position

/-- Modelled from the spec: whether the claim at position `p` survives, for
a game of maximal depth `maxDepth`.  The budget `maxDepth + 1 - p.depth`
suffices since children sit one level deeper. -/
def survivesAt (maxDepth : Nat) (t : List Claim) (p : Position) : Bool :=
  survivesFrom t (maxDepth + 1 - p.depth) p

/-- Modelled from the spec: `ClaimTree.resolve` — the root (position
`(0, 0)`) survives iff `DefenderWins`, otherwise `ChallengerWins`. -/
def treeResolve (maxDepth : Nat) (t : List Claim) : Status :=
  if survivesFrom t (maxDepth + 1) { depth := 0, indexAtDepth := 0 } then
    Status.DefenderWins
  else
    Status.ChallengerWins

theorem all_congr_mem {α : Type} (l : List α) (f g : α → Bool)
    (h : ∀ a ∈ l, f a = g a) : l.all f = l.all g := by
  induction l with
  | nil => rfl
  | cons x xs ih =>
    simp only [List.all_cons, h x (List.mem_cons_self x xs),
      ih fun a ha => h a (List.mem_cons_of_mem x ha)]

theorem mem_childrenAt {t : List Claim} {p : Position} {c : Claim}
    (h : c ∈ childrenAt t p) :
    c.position = p.attack ∨ c.position = p.defend := by
  have h2 := List.of_mem_filter h
  simpa using h2

theorem mem_childrenAt_depth {t : List Claim} {p : Position} {c : Claim}
    (h : c ∈ childrenAt t p) : c.position.depth = p.depth + 1 := by
  rcases mem_childrenAt h with h2 | h2 <;> rw [h2] <;> rfl

/-- C1: `resolve()` computes a bottom-up "survives" boolean for every claim:
a claim with no children survives, a claim with children survives iff all
of its children do not survive, and the outcome is `DefenderWins` iff the
root survives and `ChallengerWins` iff it does not. -/
theorem claim1_resolve_survives (maxDepth : Nat) (t : List Claim)
    (p : Position) (hp : p.depth ≤ maxDepth) :
    (childrenAt t p = [] → survivesAt maxDepth t p = true) ∧
    survivesAt maxDepth t p
      = ((childrenAt t p).all fun c => ! survivesAt maxDepth t c.position) ∧
    (treeResolve maxDepth t = Status.DefenderWins ↔
      survivesAt maxDepth t { depth := 0, indexAtDepth := 0 } = true) ∧
    (treeResolve maxDepth t = Status.ChallengerWins ↔
      survivesAt maxDepth t { depth := 0, indexAtDepth := 0 } = false) := by
  have hfix : survivesAt maxDepth t p
      = ((childrenAt t p).all fun c => ! survivesAt maxDepth t c.position) := by
    have hstep : maxDepth + 1 - p.depth = (maxDepth - p.depth) + 1 :=
      Nat.succ_sub hp
    have hchild : ∀ c ∈ childrenAt t p,
        (! survivesFrom t (maxDepth - p.depth) c.position)
          = (! survivesAt maxDepth t c.position) := by
      intro c hc
      have hd := mem_childrenAt_depth hc
      unfold survivesAt
      rw [hd, Nat.succ_sub_succ]
    calc survivesAt maxDepth t p
        = survivesFrom t ((maxDepth - p.depth) + 1) p := by
          unfold survivesAt; rw [hstep]
      _ = ((childrenAt t p).all fun c =>
            ! survivesFrom t (maxDepth - p.depth) c.position) := rfl
      _ = ((childrenAt t p).all fun c =>
            ! survivesAt maxDepth t c.position) :=
          all_congr_mem _ _ _ hchild
  have hroot : survivesAt maxDepth t { depth := 0, indexAtDepth := 0 }
      = survivesFrom t (maxDepth + 1) { depth := 0, indexAtDepth := 0 } := rfl
  refine ⟨?_, hfix, ?_, ?_⟩
  · intro hnil
    rw [hfix, hnil]
    rfl
  · rw [hroot]
    unfold treeResolve
    cases h : survivesFrom t (maxDepth + 1) { depth := 0, indexAtDepth := 0 } <;>
      simp [h]
  · rw [hroot]
    unfold treeResolve
    cases h : survivesFrom t (maxDepth + 1) { depth := 0, indexAtDepth := 0 } <;>
      simp [h]

/-- A sample root claim used to instantiate hypotheses of the claim
theorems at concrete inputs. -/
def sampleRoot : Claim :=
  { position := { depth := 0, indexAtDepth := 0 }, value := 5,
    parentIndex := none, claimant := 1, clockCheckpoint := 0, createdAt := 0 }

theorem claim1_resolve_survives_witness :
    (({ depth := 0, indexAtDepth := 0 } : Position).depth ≤ 2) ∧
    survivesAt 2 [sampleRoot] { depth := 0, indexAtDepth := 0 }
      = ((childrenAt [sampleRoot] { depth := 0, indexAtDepth := 0 }).all
          fun c => ! survivesAt 2 [sampleRoot] c.position) :=
  ⟨by decide,
    (claim1_resolve_survives 2 [sampleRoot]
      { depth := 0, indexAtDepth := 0 } (by decide)).2.1⟩

/-- C2: `resolve()` is deterministic and idempotent — evaluating it twice on
the same tree yields the same `Status` both times. -/
theorem claim2_resolve_deterministic (maxDepth : Nat) (t : List Claim) :
    (treeResolve maxDepth t, treeResolve maxDepth t).1
      = (treeResolve maxDepth t, treeResolve maxDepth t).2 := rfl

/-- C3: a tree with only the root claim resolves `DefenderWins`; a root
countered by a single unanswered child resolves `ChallengerWins`; if that
child is countered by a grandchild the tree resolves `DefenderWins` again. -/
theorem claim3_small_trees (maxDepth v1 v2 v3 a1 a2 a3 k1 k2 s1 s2 : Nat) :
    treeResolve maxDepth
      [{ position := { depth := 0, indexAtDepth := 0 }, value := v1,
         parentIndex := none, claimant := a1, clockCheckpoint := 0,
         createdAt := 0 }] = Status.DefenderWins ∧
    treeResolve 4
      [{ position := { depth := 0, indexAtDepth := 0 }, value := v1,
         parentIndex := none, claimant := a1, clockCheckpoint := 0,
         createdAt := 0 },
       { position := { depth := 1, indexAtDepth := 0 }, value := v2,
         parentIndex := some 0, claimant := a2, clockCheckpoint := k1,
         createdAt := s1 }] = Status.ChallengerWins ∧
    treeResolve 4
      [{ position := { depth := 0, indexAtDepth := 0 }, value := v1,
         parentIndex := none, claimant := a1, clockCheckpoint := 0,
         createdAt := 0 },
       { position := { depth := 1, indexAtDepth := 0 }, value := v2,
         parentIndex := some 0, claimant := a2, clockCheckpoint := k1,
         createdAt := s1 },
       { position := { depth := 2, indexAtDepth := 0 }, value := v3,
         parentIndex := some 1, claimant := a3, clockCheckpoint := k2,
         createdAt := s2 }] = Status.DefenderWins :=
  ⟨rfl, rfl, rfl⟩

/-- Modelled from the spec: the two move kinds of the bisection protocol. -/
inductive MoveKind where
  | Attack
  | Defend
  deriving DecidableEq, Repr

/-- Modelled from the spec: the error taxonomy of the dispute-game core
relevant to the claim tree, the clock policy and the game façade. -/
inductive GameErr where
  | InvalidMove
  | ClockExpired
  | NotResolvable
  deriving DecidableEq, Repr

/-- Modelled from the spec: the position a move of the given kind on
`parentPosition` occupies. -/
def childPos (parentPosition : Position) : MoveKind → Position
  | .Attack => parentPosition.attack
  | .Defend => parentPosition.defend

/-- Modelled from the spec: whether some claim of the tree occupies `p`. -/
def positionInTree (t : List Claim) (p : Position) : Bool :=
  t.any fun c => c.position == p

/-- Modelled from the spec: the index of the claim occupying `p` in the
ordered claim sequence. -/
def parentIndexOf (t : List Claim) (p : Position) : Nat :=
  t.findIdx fun c => c.position == p

/-- Modelled from the spec: `ClaimTree.addClaim` — fails with `InvalidMove`
if the resulting position already exists, if the parent position does not
exist, or if depth would exceed `maxDepth`; otherwise appends a new claim.
Clock legality is not checked here (delegated to the clock policy), so the
new claim's checkpoint and timestamp are taken as given. -/
def addClaim (maxDepth : Nat) (t : List Claim) (parentPosition : Position)
    (kind : MoveKind) (value claimant checkpoint now : Nat) :
    Except GameErr (List Claim) :=
  let newPos := childPos parentPosition kind
  if positionInTree t newPos then
    .error .InvalidMove
  else if ! positionInTree t parentPosition then
    .error .InvalidMove
  else if maxDepth < newPos.depth then
    .error .InvalidMove
  else
    .ok (t ++ [{ position := newPos, value := value,
                 parentIndex := some (parentIndexOf t parentPosition),
                 claimant := claimant, clockCheckpoint := checkpoint,
                 createdAt := now }])

/-- C4: `addClaim` fails with `InvalidMove` exactly when the resulting
child position already exists, the parent position is absent, or the depth
would exceed `MaxDepth`; otherwise it appends exactly one new claim. -/
theorem claim4_addClaim_invalid_move (maxDepth : Nat) (t : List Claim)
    (pp : Position) (kind : MoveKind) (v cl cp ca : Nat) :
    (addClaim maxDepth t pp kind v cl cp ca = .error .InvalidMove ↔
      (positionInTree t (childPos pp kind) = true ∨
        positionInTree t pp = false ∨ maxDepth < (childPos pp kind).depth)) ∧
    (∀ t2, addClaim maxDepth t pp kind v cl cp ca = .ok t2 →
      t2 = t ++ [{ position := childPos pp kind, value := v,
                   parentIndex := some (parentIndexOf t pp), claimant := cl,
                   clockCheckpoint := cp, createdAt := ca }]) := by
  cases hA : positionInTree t (childPos pp kind) with
  | true => simp [addClaim, hA]
  | false =>
    cases hB : positionInTree t pp with
    | false => simp [addClaim, hA, hB]
    | true =>
      by_cases hC : maxDepth < (childPos pp kind).depth
      · simp [addClaim, hA, hB, hC]
      · simp [addClaim, hA, hB, hC]

theorem claim4_addClaim_invalid_move_witness :
    addClaim 4 [sampleRoot] { depth := 0, indexAtDepth := 0 } MoveKind.Attack
        7 2 3 10 ≠ Except.error GameErr.InvalidMove := by
  intro h
  have h2 := (claim4_addClaim_invalid_move 4 [sampleRoot]
    { depth := 0, indexAtDepth := 0 } MoveKind.Attack 7 2 3 10).1.mp h
  revert h2
  decide

/-- Modelled from the spec: `ClockPolicy.remainingTime`. -/
def remainingTime (maxClockDuration : Nat) (c : Claim) : Nat :=
  maxClockDuration - c.clockCheckpoint

/-- Modelled from the spec: `ClockPolicy.checkpointForMove` — the new
checkpoint is the parent claim's checkpoint plus the elapsed chain time
since the parent claim was made; fails with `ClockExpired` if it would
exceed `maxClockDuration`. -/
def checkpointForMove (maxClockDuration : Nat) (parent : Claim)
    (now : Nat) : Except GameErr Nat :=
  let cp := parent.clockCheckpoint + (now - parent.createdAt)
  if maxClockDuration < cp then .error .ClockExpired else .ok cp

/-- C5: `checkpointForMove` returns the parent's checkpoint plus the time
elapsed since the parent claim was made, fails with `ClockExpired` exactly
when the computed checkpoint exceeds `MaxClockDuration`, and accepts a move
whose checkpoint equals `MaxClockDuration` exactly. -/
theorem claim5_checkpointForMove (maxClockDuration : Nat) (parent : Claim)
    (now : Nat) :
    (checkpointForMove maxClockDuration parent now = .error .ClockExpired ↔
      maxClockDuration < parent.clockCheckpoint + (now - parent.createdAt)) ∧
    (parent.clockCheckpoint + (now - parent.createdAt) ≤ maxClockDuration →
      checkpointForMove maxClockDuration parent now
        = .ok (parent.clockCheckpoint + (now - parent.createdAt))) ∧
    (parent.clockCheckpoint + (now - parent.createdAt) = maxClockDuration →
      checkpointForMove maxClockDuration parent now = .ok maxClockDuration) := by
  by_cases h : maxClockDuration < parent.clockCheckpoint + (now - parent.createdAt)
  · refine ⟨?_, ?_, ?_⟩
    · simp [checkpointForMove, h]
    · intro hle
      exact absurd h (Nat.not_lt.mpr hle)
    · intro heq
      rw [heq] at h
      exact absurd h (Nat.lt_irrefl maxClockDuration)
  · refine ⟨?_, ?_, ?_⟩
    · simp [checkpointForMove, h]
    · intro hle
      simp [checkpointForMove, h]
    · intro heq
      simp [checkpointForMove, h, heq]

theorem claim5_checkpointForMove_witness :
    ({ position := { depth := 1, indexAtDepth := 0 }, value := 9,
       parentIndex := some 0, claimant := 2, clockCheckpoint := 3,
       createdAt := 10 } : Claim).clockCheckpoint + (12 - 10) = 5 ∧
    checkpointForMove 5
      { position := { depth := 1, indexAtDepth := 0 }, value := 9,
        parentIndex := some 0, claimant := 2, clockCheckpoint := 3,
        createdAt := 10 } 12 = .ok 5 :=
  ⟨by decide,
    (claim5_checkpointForMove 5
      { position := { depth := 1, indexAtDepth := 0 }, value := 9,
        parentIndex := some 0, claimant := 2, clockCheckpoint := 3,
        createdAt := 10 } 12).2.2 (by decide)⟩

/-- Modelled from the spec: whether the opponent of claim `c` still has
clock time left at chain time `now` to respond: the checkpoint a response
would get is still strictly below `maxClockDuration`. -/
def hasRemainingTime (maxClockDuration : Nat) (c : Claim) (now : Nat) : Bool :=
  c.clockCheckpoint + (now - c.createdAt) < maxClockDuration

/-- Modelled from the spec: the `Game` façade combining the claim tree and
the clock policy; `status` is the only mutable field. -/
structure Game where
  tree : List Claim
  maxDepth : Nat
  maxClockDuration : Nat
  status : Status
  deriving DecidableEq, Repr

/-- Modelled from the spec: a game is resolvable once no live (uncountered)
claim has remaining clock time. -/
def resolvable (g : Game) (now : Nat) : Bool :=
  g.tree.all fun c =>
    countered g.tree c || ! hasRemainingTime g.maxClockDuration c now

/-- Modelled from the spec: `Game.resolve(now)` — a no-op returning the
existing status if already resolved; fails with `NotResolvable` while some
live claim still has remaining clock time; otherwise sets the status to the
outcome of `ClaimTree.resolve`. -/
def gameResolve (g : Game) (now : Nat) : Except GameErr (Game × Status) :=
  if g.status = Status.InProgress then
    if resolvable g now then
      .ok ({ g with status := treeResolve g.maxDepth g.tree },
           treeResolve g.maxDepth g.tree)
    else
      .error .NotResolvable
  else
    .ok (g, g.status)

/-- Modelled from the spec: look up the claim occupying a position. -/
def findClaim (t : List Claim) (p : Position) : Option Claim :=
  t.find? fun c => c.position == p

/-- Modelled from the spec: `Game.move` — rejects any move once the game is
no longer in progress; treats a duplicate of an existing identical claim as
an idempotent no-op; otherwise delegates to `checkpointForMove` and
`addClaim`. -/
def gameMove (g : Game) (parentPosition : Position) (kind : MoveKind)
    (value claimant now : Nat) : Except GameErr Game :=
  if g.status = Status.InProgress then
    match findClaim g.tree parentPosition with
    | none => .error .InvalidMove
    | some parent =>
      if g.tree.any fun c =>
          c.position == childPos parentPosition kind && c.value == value then
        .ok g
      else
        match checkpointForMove g.maxClockDuration parent now with
        | .error e => .error e
        | .ok cp =>
          match addClaim g.maxDepth g.tree parentPosition kind value claimant
              cp now with
          | .error e => .error e
          | .ok t2 => .ok { g with tree := t2 }
  else
    .error .InvalidMove

/-- Modelled from the spec: a game as created, with the root claim posted
and status `InProgress`. -/
def initialGame (maxDepth maxClockDuration rootValue claimant t0 : Nat) : Game :=
  { tree := [{ position := { depth := 0, indexAtDepth := 0 },
               value := rootValue, parentIndex := none, claimant := claimant,
               clockCheckpoint := 0, createdAt := t0 }],
    maxDepth := maxDepth, maxClockDuration := maxClockDuration,
    status := Status.InProgress }

/-- An externally observable operation on a game. -/
inductive Op where
  | move (parentPosition : Position) (kind : MoveKind) (value claimant now : Nat)
  | res (now : Nat)

/-- One observable transition of a game: a failed operation leaves the game
unchanged, a successful one replaces it. -/
def step (g : Game) : Op → Game
  | .move p k v c n =>
    match gameMove g p k v c n with
    | .ok g2 => g2
    | .error _ => g
  | .res n =>
    match gameResolve g n with
    | .ok gs => gs.1
    | .error _ => g

theorem treeResolve_cases (maxDepth : Nat) (t : List Claim) :
    treeResolve maxDepth t = Status.DefenderWins ∨
      treeResolve maxDepth t = Status.ChallengerWins := by
  unfold treeResolve
  split
  · exact Or.inl rfl
  · exact Or.inr rfl

theorem treeResolve_ne_inprogress (maxDepth : Nat) (t : List Claim) :
    treeResolve maxDepth t ≠ Status.InProgress := by
  rcases treeResolve_cases maxDepth t with h | h <;> rw [h] <;> simp

theorem gameResolve_frozen {g : Game} (hs : g.status ≠ Status.InProgress)
    (now : Nat) : gameResolve g now = .ok (g, g.status) := by
  unfold gameResolve
  rw [if_neg hs]

theorem gameMove_frozen {g : Game} (hs : g.status ≠ Status.InProgress)
    (p : Position) (k : MoveKind) (v cl now : Nat) :
    gameMove g p k v cl now = .error .InvalidMove := by
  unfold gameMove
  rw [if_neg hs]

theorem step_frozen {g : Game} (hs : g.status ≠ Status.InProgress)
    (op : Op) : step g op = g := by
  cases op with
  | move p k v c n =>
    show (match gameMove g p k v c n with
      | .ok g2 => g2
      | .error _ => g) = g
    rw [gameMove_frozen hs]
  | res n =>
    show (match gameResolve g n with
      | .ok gs => gs.1
      | .error _ => g) = g
    rw [gameResolve_frozen hs]

theorem gameMove_ok_status {g : Game} {p : Position} {k : MoveKind}
    {v cl now : Nat} {g2 : Game} (h : gameMove g p k v cl now = .ok g2) :
    g2.status = g.status := by
  unfold gameMove at h
  split at h
  · split at h
    · exact absurd h (by simp)
    · split at h
      · injection h with h2
        rw [← h2]
      · split at h
        · exact absurd h (by simp)
        · split at h
          · exact absurd h (by simp)
          · injection h with h2
            rw [← h2]
  · exact absurd h (by simp)

/-- C6: `Game.resolve(now)` fails with `NotResolvable` while any live
(uncountered) claim still has remaining clock time; otherwise it sets the
status exactly once to the outcome of `ClaimTree.resolve()`; and on an
already-resolved game it is a no-op returning the existing status. -/
theorem claim6_gameResolve (g : Game) (now : Nat) :
    (g.status ≠ Status.InProgress → gameResolve g now = .ok (g, g.status)) ∧
    (g.status = Status.InProgress →
      (∃ c ∈ g.tree, countered g.tree c = false ∧
          hasRemainingTime g.maxClockDuration c now = true) →
      gameResolve g now = .error .NotResolvable) ∧
    (g.status = Status.InProgress → resolvable g now = true →
      gameResolve g now
        = .ok ({ g with status := treeResolve g.maxDepth g.tree },
               treeResolve g.maxDepth g.tree)) ∧
    (∀ g2 s, gameResolve g now = .ok (g2, s) →
      s = g2.status ∧ g2.status ≠ Status.InProgress ∧
        ∀ m, gameResolve g2 m = .ok (g2, g2.status)) := by
  refine ⟨fun hs => gameResolve_frozen hs now, ?_, ?_, ?_⟩
  · intro hs hex
    obtain ⟨c, hc, hcount, hrem⟩ := hex
    have hres : resolvable g now = false := by
      cases hr : resolvable g now with
      | false => rfl
      | true =>
        exfalso
        have hall := hr
        unfold resolvable at hall
        rw [List.all_eq_true] at hall
        have h3 := hall c hc
        rw [hcount, hrem] at h3
        simp at h3
    unfold gameResolve
    rw [if_pos hs, hres]
    rfl
  · intro hs hres
    unfold gameResolve
    rw [if_pos hs, hres]
    rfl
  · intro g2 s h
    by_cases hs : g.status = Status.InProgress
    · unfold gameResolve at h
      rw [if_pos hs] at h
      cases hr : resolvable g now with
      | false =>
        rw [hr] at h
        exact absurd h (by simp)
      | true =>
        rw [hr] at h
        simp only [if_true] at h
        injection h with h2
        injection h2 with h3 h4
        rw [← h3, ← h4]
        refine ⟨rfl, treeResolve_ne_inprogress g.maxDepth g.tree, ?_⟩
        intro m
        exact gameResolve_frozen (treeResolve_ne_inprogress g.maxDepth g.tree) m
    · rw [gameResolve_frozen hs now] at h
      injection h with h2
      injection h2 with h3 h4
      rw [← h3, ← h4]
      exact ⟨rfl, hs, fun m => gameResolve_frozen hs m⟩

theorem claim6_gameResolve_witness :
    gameResolve (initialGame 4 5 9 1 0) 10
      = .ok ({ initialGame 4 5 9 1 0 with status := Status.DefenderWins },
             Status.DefenderWins) := by
  have h := (claim6_gameResolve (initialGame 4 5 9 1 0) 10).2.2.1 rfl (by decide)
  have h2 : treeResolve (initialGame 4 5 9 1 0).maxDepth
      (initialGame 4 5 9 1 0).tree = Status.DefenderWins := by decide
  rw [h2] at h
  exact h

/-- C7: the status takes exactly the three values `InProgress`,
`ChallengerWins`, `DefenderWins` (numbered 0, 1, 2 as in the Go `iota`),
starts as `InProgress`, transitions at most once — at resolution — to
`ChallengerWins` or `DefenderWins`, is terminal thereafter, and no move is
accepted after resolution. -/
theorem claim7_status_lifecycle (g : Game) (op : Op) (p : Position)
    (k : MoveKind) (v cl n md mcd rv rc t0 : Nat) :
    (∀ s : Status, s = Status.InProgress ∨ s = Status.ChallengerWins ∨
      s = Status.DefenderWins) ∧
    (Status.InProgress.toNat = 0 ∧ Status.ChallengerWins.toNat = 1 ∧
      Status.DefenderWins.toNat = 2) ∧
    (initialGame md mcd rv rc t0).status = Status.InProgress ∧
    (g.status ≠ Status.InProgress →
      gameMove g p k v cl n = .error .InvalidMove) ∧
    (g.status ≠ Status.InProgress → step g op = g) ∧
    ((step g op).status = g.status ∨
      (g.status = Status.InProgress ∧
        ((step g op).status = Status.ChallengerWins ∨
          (step g op).status = Status.DefenderWins))) := by
  refine ⟨?_, ⟨rfl, rfl, rfl⟩, rfl, ?_, ?_, ?_⟩
  · intro s
    cases s
    · exact Or.inl rfl
    · exact Or.inr (Or.inl rfl)
    · exact Or.inr (Or.inr rfl)
  · intro hs
    exact gameMove_frozen hs p k v cl n
  · intro hs
    exact step_frozen hs op
  · by_cases hs : g.status = Status.InProgress
    · cases op with
      | move pp kk vv cc nn =>
        cases hmv : gameMove g pp kk vv cc nn with
        | error e =>
          left
          show (match gameMove g pp kk vv cc nn with
            | .ok g2 => g2
            | .error _ => g).status = g.status
          rw [hmv]
        | ok g2 =>
          left
          show (match gameMove g pp kk vv cc nn with
            | .ok g2 => g2
            | .error _ => g).status = g.status
          rw [hmv]
          exact gameMove_ok_status hmv
      | res nn =>
        cases hr : resolvable g nn with
        | false =>
          left
          show (match gameResolve g nn with
            | .ok gs => gs.1
            | .error _ => g).status = g.status
          have hrv : gameResolve g nn = .error .NotResolvable := by
            unfold gameResolve
            rw [if_pos hs, if_neg (by simp [hr])]
          rw [hrv]
        | true =>
          right
          refine ⟨hs, ?_⟩
          have hrv : gameResolve g nn
              = .ok ({ g with status := treeResolve g.maxDepth g.tree },
                     treeResolve g.maxDepth g.tree) := by
            unfold gameResolve
            rw [if_pos hs, if_pos hr]
          have hstep : (step g (Op.res nn)).status
              = treeResolve g.maxDepth g.tree := by
            show (match gameResolve g nn with
              | .ok gs => gs.1
              | .error _ => g).status = treeResolve g.maxDepth g.tree
            rw [hrv]
          rw [hstep]
          rcases treeResolve_cases g.maxDepth g.tree with h | h
          · exact Or.inr h
          · exact Or.inl h
    · left
      rw [step_frozen hs op]

theorem claim7_status_lifecycle_witness :
    gameMove { initialGame 4 5 9 1 0 with status := Status.DefenderWins }
      { depth := 0, indexAtDepth := 0 } MoveKind.Attack 7 2 3
      = .error .InvalidMove :=
  (claim7_status_lifecycle
    { initialGame 4 5 9 1 0 with status := Status.DefenderWins }
    (Op.res 0) { depth := 0, indexAtDepth := 0 } MoveKind.Attack
    7 2 3 4 5 9 1 0).2.2.2.1 (by decide)

/-- Game depth of the alphabet test game, from
`op-e2e/e2eutils/disputegame/helper.go` (`alphabetGameDepth = 4`). -/
def alphabetGameDepth : Nat := 4

/-- Root claim computed by `StartAlphabetGame` in
`op-e2e/e2eutils/disputegame/helper.go`: the trace provider's commitment at
index `2 ^ alphabetGameDepth - 1`. -/
def startAlphabetGameRootClaim (trace : Nat → Nat) : Nat :=
  trace (2 ^ alphabetGameDepth - 1)

/-- C9: the root position's trace index under the right-most-leaf projection
is `2 ^ MaxDepth - 1`; with `MaxDepth = 4` a newly created alphabet game's
root claim is the trace provider's commitment at trace index 15. -/
theorem claim9_root_trace_index (maxDepth : Nat) (trace : Nat → Nat) :
    Position.traceIndex maxDepth { depth := 0, indexAtDepth := 0 }
      = 2 ^ maxDepth - 1 ∧
    Position.traceIndex alphabetGameDepth { depth := 0, indexAtDepth := 0 }
      = 15 ∧
    startAlphabetGameRootClaim trace = trace 15 ∧
    startAlphabetGameRootClaim trace
      = trace (Position.traceIndex alphabetGameDepth
          { depth := 0, indexAtDepth := 0 }) := by
  refine ⟨?_, by decide, rfl, rfl⟩
  unfold Position.traceIndex
  simp

end Fault

namespace Metrics

/-- Abstraction of a non-nil Go error as seen by the recorder hooks of
`op-service/metrics/rpc_metrics.go`: whether `errors.As` finds an
`rpc.Error` (and its code), whether it finds an `rpc.HTTPError` (and its
status code), whether `errors.Is(err, ethereum.NotFound)` holds, and
whether `gogo/status.FromError` succeeds (and the gRPC code it yields). -/
structure GoErr where
  rpcCode : Option Int
  httpStatus : Option Nat
  isEthNotFound : Bool
  grpcCode : Option Nat
  deriving DecidableEq, Repr

/-- Name of a gRPC code as printed by `fmt.Sprintf` with
`google.golang.org/grpc/codes.Code`. -/
def grpcCodeName : Nat → String
  | 0 => "OK"
  | 1 => "Canceled"
  | 2 => "Unknown"
  | 3 => "InvalidArgument"
  | 4 => "DeadlineExceeded"
  | 5 => "NotFound"
  | 6 => "AlreadyExists"
  | 7 => "PermissionDenied"
  | 8 => "ResourceExhausted"
  | 9 => "FailedPrecondition"
  | 10 => "Aborted"
  | 11 => "OutOfRange"
  | 12 => "Unimplemented"
  | 13 => "Internal"
  | 14 => "Unavailable"
  | 15 => "DataLoss"
  | 16 => "Unauthenticated"
  | n => "Code(" ++ toString n ++ ")"

/-- Error label computed by `RecordRPCClientResponse`
(`op-service/metrics/rpc_metrics.go`, lines 145-161): nil errors become
`<nil>`, RPC errors `rpc_<code>`, HTTP errors `http_<status>`, not-found
errors `<not found>`, and everything else `<unknown>`, checked in that
order. -/
def rpcClientErrStr : Option GoErr → String
  | none => "<nil>"
  | some e =>
    match e.rpcCode with
    | some c => "rpc_" ++ toString c
    | none =>
      match e.httpStatus with
      | some s => "http_" ++ toString s
      | none => if e.isEthNotFound then "<not found>" else "<unknown>"

/-- Error label computed by `RecordDAClientResponse`
(`op-service/metrics/rpc_metrics.go`, lines 177-195): nil errors become
`<nil>`, errors carrying a gRPC status `grpc_<code name>`, and everything
else `<unknown>`. -/
def daClientErrStr : Option GoErr → String
  | none => "<nil>"
  | some e =>
    match e.grpcCode with
    | some c => "grpc_" ++ grpcCodeName c
    | none => "<unknown>"

/-- Counter state of a `(method, error)`-labelled Prometheus counter
vector. -/
def Counters : Type := String × String → Nat

/-- `RecordRPCClientResponse`: increments the
`(method, rpcClientErrStr err)` cell of `RPCClientResponsesTotal`. -/
def recordRPCClientResponse (counters : Counters) (method : String)
    (err : Option GoErr) : Counters :=
  fun k => if k = (method, rpcClientErrStr err) then counters k + 1 else counters k

/-- `RecordDAClientResponse`: increments the
`(method, daClientErrStr err)` cell of `DAClientResponsesTotal`. -/
def recordDAClientResponse (counters : Counters) (method : String)
    (err : Option GoErr) : Counters :=
  fun k => if k = (method, daClientErrStr err) then counters k + 1 else counters k

/-- C8 counterexample: an `rpc.HTTPError` with status code 503 is recorded
by the DA-client recorder as `<unknown>`, not as the transport-level label
`http_503` that the RPC-client recorder produces, so the claimed common
taxonomy mapping does not hold for both recorders. -/
theorem claim8_da_http_counterexample :
    daClientErrStr (some { rpcCode := none, httpStatus := some 503,
                           isEthNotFound := false, grpcCode := none })
      = "<unknown>" ∧
    rpcClientErrStr (some { rpcCode := none, httpStatus := some 503,
                            isEthNotFound := false, grpcCode := none })
      = "http_503" ∧
    ("<unknown>" : String) ≠ "http_503" :=
  ⟨rfl, rfl, by decide⟩

/-- C8 (amended): each recorder classifies every error into exactly one
label; the RPC-client recorder maps nil to `<nil>`, RPC errors to
`rpc_<code>`, HTTP errors to `http_<status>`, not-found errors to
`<not found>` and everything else to `<unknown>`; the DA-client recorder
maps nil to `<nil>`, errors carrying a gRPC status to `grpc_<code name>`
and everything else (including HTTP and not-found errors) to
`<unknown>`. -/
theorem claim8_classification_amended (err : Option GoErr) :
    (err = none → rpcClientErrStr err = "<nil>" ∧ daClientErrStr err = "<nil>") ∧
    (∀ e, err = some e →
      (∀ c, e.rpcCode = some c → rpcClientErrStr err = "rpc_" ++ toString c) ∧
      (e.rpcCode = none → ∀ s, e.httpStatus = some s →
        rpcClientErrStr err = "http_" ++ toString s) ∧
      (e.rpcCode = none → e.httpStatus = none → e.isEthNotFound = true →
        rpcClientErrStr err = "<not found>") ∧
      (e.rpcCode = none → e.httpStatus = none → e.isEthNotFound = false →
        rpcClientErrStr err = "<unknown>") ∧
      (∀ c, e.grpcCode = some c →
        daClientErrStr err = "grpc_" ++ grpcCodeName c) ∧
      (e.grpcCode = none → daClientErrStr err = "<unknown>")) := by
  constructor
  · intro h
    rw [h]
    exact ⟨rfl, rfl⟩
  · intro e h
    rw [h]
    refine ⟨?_, ?_, ?_, ?_, ?_, ?_⟩
    · intro c hc
      simp [rpcClientErrStr, hc]
    · intro hr s hstat
      simp [rpcClientErrStr, hr, hstat]
    · intro hr hstat hnf
      simp [rpcClientErrStr, hr, hstat, hnf]
    · intro hr hstat hnf
      simp [rpcClientErrStr, hr, hstat, hnf]
    · intro c hc
      simp [daClientErrStr, hc]
    · intro hc
      simp [daClientErrStr, hc]

theorem claim8_classification_amended_witness :
    rpcClientErrStr (some { rpcCode := none, httpStatus := none,
                            isEthNotFound := true, grpcCode := some 5 })
      = "<not found>" ∧
    daClientErrStr (some { rpcCode := none, httpStatus := none,
                           isEthNotFound := true, grpcCode := some 5 })
      = "grpc_NotFound" :=
  ⟨((claim8_classification_amended
      (some { rpcCode := none, httpStatus := none, isEthNotFound := true,
              grpcCode := some 5 })).2
      { rpcCode := none, httpStatus := none, isEthNotFound := true,
        grpcCode := some 5 } rfl).2.2.1 rfl rfl rfl,
   ((claim8_classification_amended
      (some { rpcCode := none, httpStatus := none, isEthNotFound := true,
              grpcCode := some 5 })).2
      { rpcCode := none, httpStatus := none, isEthNotFound := true,
        grpcCode := some 5 } rfl).2.2.2.2.1 5 rfl⟩

/-- C10: `RecordRPCClientResponse` is total and deterministic, applies the
fixed precedence nil, RPC error, HTTP error, not-found, unknown — an error
matching several predicates is recorded under the earliest matching label —
and every call increments exactly one `(method, error)` counter cell. -/
theorem claim10_rpc_record_precedence (counters : Counters) (method : String)
    (err : Option GoErr) :
    recordRPCClientResponse counters method err (method, rpcClientErrStr err)
      = counters (method, rpcClientErrStr err) + 1 ∧
    (∀ k, k ≠ (method, rpcClientErrStr err) →
      recordRPCClientResponse counters method err k = counters k) ∧
    (err = none → rpcClientErrStr err = "<nil>") ∧
    (∀ e c, err = some e → e.rpcCode = some c →
      rpcClientErrStr err = "rpc_" ++ toString c) ∧
    (∀ e s, err = some e → e.rpcCode = none → e.httpStatus = some s →
      rpcClientErrStr err = "http_" ++ toString s) ∧
    (∀ e, err = some e → e.rpcCode = none → e.httpStatus = none →
      e.isEthNotFound = true → rpcClientErrStr err = "<not found>") ∧
    (∀ e, err = some e → e.rpcCode = none → e.httpStatus = none →
      e.isEthNotFound = false → rpcClientErrStr err = "<unknown>") := by
  refine ⟨?_, ?_, ?_, ?_, ?_, ?_, ?_⟩
  · simp [recordRPCClientResponse]
  · intro k hk
    simp [recordRPCClientResponse, hk]
  · intro h
    rw [h]
    rfl
  · intro e c he hc
    simp [rpcClientErrStr, he, hc]
  · intro e s he hr hstat
    simp [rpcClientErrStr, he, hr, hstat]
  · intro e he hr hstat hnf
    simp [rpcClientErrStr, he, hr, hstat, hnf]
  · intro e he hr hstat hnf
    simp [rpcClientErrStr, he, hr, hstat, hnf]

/-- A sample error matching several predicates at once: it is an RPC error
with code 3, an HTTP error with status 404, and a not-found error. -/
def overlapErr : GoErr :=
  { rpcCode := some 3, httpStatus := some 404, isEthNotFound := true,
    grpcCode := none }

theorem claim10_rpc_record_precedence_witness :
    recordRPCClientResponse (fun _ => 0) "eth_call" (some overlapErr)
      ("eth_call", "rpc_3") = 1 ∧
    rpcClientErrStr (some overlapErr) = "rpc_3" := by
  have h := claim10_rpc_record_precedence (fun _ => 0) "eth_call"
    (some overlapErr)
  have hlab : rpcClientErrStr (some overlapErr) = "rpc_3" :=
    h.2.2.2.1 overlapErr 3 rfl rfl
  refine ⟨?_, hlab⟩
  have h1 := h.1
  rw [hlab] at h1
  exact h1

end Metrics
